import Mathlib

/-!
Verification of the ESP-PLC bridge against its specification.

The definitions below are shallow embeddings of the Python sources:
* `PLCWebConnect/ESP32_Files/main.py` — class `ModbusRTU` (the frame codec)
  and `ESP32PLCBridge.poll_plc_data` (the polling engine);
* `PLCWebConnect/RaspberryPi/plc_communication.py` — `PLCCommunicator`
  (`poll_data`, `get_status`, `connect`, `write_coil`, `write_register`);
* `PLCWebConnect/RaspberryPi/custom_scripts.py` — `ScriptExecutor`
  (`execute_script`, `execute_all_enabled_scripts`) together with the
  script-registry toggle from `web_server.py`.

Machine integers are embedded as `Nat` with the exact bit operations of the
source (`^^^`, `>>>`, `&&&`, `<<<`, `|||`); Python byte strings are `List Nat`;
a UART read that may time out is `Option (List Nat)`; Python dicts are
association lists in insertion order.
-/

set_option maxRecDepth 40000

namespace ESPPLC

/-! ## Frame codec (`ModbusRTU`, ESP32_Files/main.py lines 46-137) -/

/-- One inner round of `ModbusRTU.crc16`: if the low bit of the accumulator is
set, shift right one and XOR with `0xA001`, else only shift right one. -/
def crcRound (crc : Nat) : Nat :=
  if crc &&& 1 = 1 then (crc >>> 1) ^^^ 0xA001 else crc >>> 1

/-- `n` successive `crcRound` steps (the `for _ in range(8)` loop body). -/
def crcRounds : Nat → Nat → Nat
  | 0, crc => crc
  | n + 1, crc => crcRounds n (crcRound crc)

/-- `ModbusRTU.crc16`: accumulator starts at `0xFFFF`; each input byte is
XORed in, then eight `crcRound` steps are applied. -/
def crc16 (data : List Nat) : Nat :=
  data.foldl (fun crc b => crcRounds 8 (crc ^^^ b)) 0xFFFF

/-- `x.to_bytes(2, 'big')` for `x < 65536`. -/
def toBytesBE2 (x : Nat) : List Nat := [x / 256, x % 256]

/-- `x.to_bytes(2, 'little')` for `x < 65536`. -/
def toBytesLE2 (x : Nat) : List Nat := [x % 256, x / 256]

/-- `ModbusRTU.build_request`: `[slave][func]` then start address and count
big-endian, then the CRC of those six bytes little-endian. -/
def build_request (slave_id function_code start_addr count : Nat) : List Nat :=
  let request := [slave_id, function_code] ++ toBytesBE2 start_addr ++ toBytesBE2 count
  request ++ toBytesLE2 (crc16 request)

/-- The bit unpacking loop shared by `read_coils` and `read_discrete_inputs`:
each payload byte yields eight booleans least-significant bit first, and bits
are appended only while fewer than `count` have been collected. -/
def unpackBits (data : List Nat) (count : Nat) : List Bool :=
  ((data.map (fun b => (List.range 8).map (fun i => b.testBit i))).flatten).take count

/-- The response-parsing portion of `read_coils` / `read_discrete_inputs`
(ESP32_Files/main.py lines 76-88 and 100-112): the UART response (possibly
absent) is valid when non-empty with at least 5 bytes and a matching slave id
and function code; the payload is `response[3 : 3+byte_count]` (truncated by
slicing when the buffer is short), from which at most `count` bits are taken.
-/
def parse_read_bits (slave_id function_code count : Nat)
    (response : Option (List Nat)) : Option (List Bool) :=
  match response with
  | none => none
  | some r =>
    if 5 ≤ r.length then
      if r.getD 0 0 = slave_id ∧ r.getD 1 0 = function_code then
        some (unpackBits ((r.drop 3).take (r.getD 2 0)) count)
      else none
    else none

/-- `ModbusRTU.read_coils` response parsing (function code 1). -/
def read_coils_parse (slave_id count : Nat) (response : Option (List Nat)) :
    Option (List Bool) :=
  parse_read_bits slave_id 1 count response

/-- `ModbusRTU.read_discrete_inputs` response parsing (function code 2). -/
def read_discrete_inputs_parse (slave_id count : Nat) (response : Option (List Nat)) :
    Option (List Bool) :=
  parse_read_bits slave_id 2 count response

/-- The response-parsing portion of `read_holding_registers` (ESP32_Files/
main.py lines 124-134): unlike the bit readers it additionally requires
`3 + byte_count + 2 ≤ len(response)`, then pairs the payload bytes big-endian;
the loop `for i in range(0, byte_count, 2)` runs `(byte_count+1)/2` times. -/
def read_holding_registers_parse (slave_id : Nat) (response : Option (List Nat)) :
    Option (List Nat) :=
  match response with
  | none => none
  | some r =>
    if 5 ≤ r.length then
      if r.getD 0 0 = slave_id ∧ r.getD 1 0 = 3 then
        if 3 + r.getD 2 0 + 2 ≤ r.length then
          some ((List.range ((r.getD 2 0 + 1) / 2)).map (fun k =>
            ((r.getD (3 + 2 * k) 0) <<< 8) ||| r.getD (3 + 2 * k + 1) 0))
        else none
      else none
    else none

/-- C3: `crc16` starts from accumulator `0xFFFF`; extending the input by one
byte XORs that byte into the accumulator and applies eight shift/XOR rounds
(`crcRound`); on the reference vector `[0x01, 0x03, 0x00, 0x00, 0x00, 0x0A]`
it yields the documented Modbus constant `0xCDC5` (wire bytes `C5 CD`). -/
theorem crc16_modbus_spec :
    crc16 [] = 0xFFFF ∧
    (∀ data b, crc16 (data ++ [b]) = crcRounds 8 (crc16 data ^^^ b)) ∧
    (∀ c, crcRound c = if c &&& 1 = 1 then (c >>> 1) ^^^ 0xA001 else c >>> 1) ∧
    crc16 [0x01, 0x03, 0x00, 0x00, 0x00, 0x0A] = 0xCDC5 := by
  refine ⟨rfl, ?_, fun c => rfl, by decide⟩
  intro data b
  simp [crc16, List.foldl_append]

/-- C2 (counterexample): a coil response of 5 bytes whose declared byte count
is 4 would need `3 + 4 + 2 = 9` bytes, yet `read_coils` does not return null:
it decodes the truncated payload. -/
theorem short_coil_response_not_null :
    (read_coils_parse 1 16 (some [1, 1, 4, 0xAB, 0xCD])).isSome = true ∧
    [1, 1, 4, 0xAB, 0xCD].length < 3 + 4 + 2 := by
  decide

/-- C2 (amended): the register parser returns null whenever the buffer is
shorter than `3 + declared_byte_count + 2`; all three parsers return null on a
slave-id or function-code mismatch and on an absent response; but the coil and
discrete-input parsers perform no byte-count length check — any response of at
least 5 bytes with a matching header is decoded (from the truncated available
payload), never null. -/
theorem parse_response_boundary :
    (∀ slave r, r.length < 3 + r.getD 2 0 + 2 →
      read_holding_registers_parse slave (some r) = none) ∧
    (∀ slave count r, r.getD 0 0 ≠ slave ∨ r.getD 1 0 ≠ 1 →
      read_coils_parse slave count (some r) = none) ∧
    (∀ slave count r, r.getD 0 0 ≠ slave ∨ r.getD 1 0 ≠ 2 →
      read_discrete_inputs_parse slave count (some r) = none) ∧
    (∀ slave r, r.getD 0 0 ≠ slave ∨ r.getD 1 0 ≠ 3 →
      read_holding_registers_parse slave (some r) = none) ∧
    (∀ slave count, read_coils_parse slave count none = none) ∧
    (∀ slave count, read_discrete_inputs_parse slave count none = none) ∧
    (∀ slave, read_holding_registers_parse slave none = none) ∧
    (∀ slave fc count r, 5 ≤ r.length → r.getD 0 0 = slave → r.getD 1 0 = fc →
      (parse_read_bits slave fc count (some r)).isSome = true) := by
  refine ⟨?_, ?_, ?_, ?_, fun _ _ => rfl, fun _ _ => rfl, fun _ => rfl, ?_⟩
  · intro slave r h
    unfold read_holding_registers_parse
    by_cases h5 : 5 ≤ r.length
    · simp only [h5, if_true]
      split
      · have hle : ¬ 3 + r.getD 2 0 + 2 ≤ r.length := by omega
        rw [if_neg hle]
      · rfl
    · simp [h5]
  · intro slave count r h
    unfold read_coils_parse parse_read_bits
    have : ¬ (r.getD 0 0 = slave ∧ r.getD 1 0 = 1) := by tauto
    simp only [this, if_false]
    split <;> rfl
  · intro slave count r h
    unfold read_discrete_inputs_parse parse_read_bits
    have : ¬ (r.getD 0 0 = slave ∧ r.getD 1 0 = 2) := by tauto
    simp only [this, if_false]
    split <;> rfl
  · intro slave r h
    unfold read_holding_registers_parse
    have : ¬ (r.getD 0 0 = slave ∧ r.getD 1 0 = 3) := by tauto
    simp only [this, if_false]
    split <;> rfl
  · intro slave fc count r h5 h0 h1
    show (if 5 ≤ r.length then
        if r.getD 0 0 = slave ∧ r.getD 1 0 = fc then
          some (unpackBits ((r.drop 3).take (r.getD 2 0)) count)
        else none
      else none).isSome = true
    rw [if_pos h5, if_pos ⟨h0, h1⟩]
    rfl

/-- C2 (witness): `parse_response_boundary` applied at concrete inputs. -/
theorem parse_response_boundary_witness :
    read_holding_registers_parse 1 (some [1, 3, 4, 0, 7, 0]) = none ∧
    read_coils_parse 1 16 (some [2, 1, 2, 0, 0, 0, 0]) = none ∧
    read_discrete_inputs_parse 1 16 (some [1, 9, 2, 0, 0, 0, 0]) = none ∧
    read_holding_registers_parse 1 (some [1, 1, 2, 0, 0, 0, 0]) = none ∧
    (parse_read_bits 1 2 16 (some [1, 2, 2, 5, 0])).isSome = true := by
  refine ⟨?_, ?_, ?_, ?_, ?_⟩
  · exact parse_response_boundary.1 1 [1, 3, 4, 0, 7, 0] (by decide)
  · exact parse_response_boundary.2.1 1 16 [2, 1, 2, 0, 0, 0, 0] (by decide)
  · exact parse_response_boundary.2.2.1 1 16 [1, 9, 2, 0, 0, 0, 0] (by decide)
  · exact parse_response_boundary.2.2.2.1 1 [1, 1, 2, 0, 0, 0, 0] (by decide)
  · exact parse_response_boundary.2.2.2.2.2.2.2 1 2 16 [1, 2, 2, 5, 0]
      (by decide) (by decide) (by decide)

/-! ## Synthetic responses and the read round-trip (C8) -/

/-- The number denoted by a list of booleans read least-significant bit
first: the byte value a Modbus slave packs `l` into. -/
def byteOfBits (l : List Bool) : Nat :=
  l.foldr (fun b acc => (if b then 1 else 0) + 2 * acc) 0

/-- LSB-first bit packing of a boolean list into payload bytes, eight bits
per byte, as a conforming slave builds a coil/discrete-input response. -/
def packBits : List Bool → List Nat
  | [] => []
  | b :: t => byteOfBits ((b :: t).take 8) :: packBits (t.drop 7)
termination_by l => l.length
decreasing_by simp [List.length_drop]; omega

/-- Big-endian 16-bit encoding of register values into payload bytes. -/
def encodeRegistersBE (vs : List Nat) : List Nat :=
  (vs.map (fun v => [v / 256, v % 256])).flatten

/-- A well-formed read response for function codes 1/2 carrying the bits
`bs`: header `[slave][fc][byte_count]`, packed payload, two trailing CRC
bytes. -/
def syntheticBitResponse (slave fc : Nat) (bs : List Bool) (c1 c2 : Nat) : List Nat :=
  slave :: fc :: (packBits bs).length :: (packBits bs ++ [c1, c2])

/-- A well-formed read response for function code 3 carrying the register
values `vs`. -/
def syntheticRegResponse (slave : Nat) (vs : List Nat) (c1 c2 : Nat) : List Nat :=
  slave :: 3 :: 2 * vs.length :: (encodeRegistersBE vs ++ [c1, c2])

theorem testBit_byteOfBits (l : List Bool) (i : Nat) :
    (byteOfBits l).testBit i = l.getD i false := by
  induction l generalizing i with
  | nil => simp [byteOfBits]
  | cons b t ih =>
    have hunfold : byteOfBits (b :: t) = (if b then 1 else 0) + 2 * byteOfBits t := rfl
    cases i with
    | zero =>
      rw [hunfold, Nat.testBit_zero]
      cases b <;> simp [Nat.add_mul_mod_self_left]
    | succ i =>
      rw [hunfold, Nat.testBit_succ]
      have hdiv : ((if b then 1 else 0) + 2 * byteOfBits t) / 2 = byteOfBits t := by
        cases b
        · simp
        · simp
          omega
      rw [hdiv, ih, List.getD_cons_succ]

/-- Eight LSB-first test bits of a packed byte recover the bits plus
`false` padding. -/
theorem testBits_byteOfBits (l : List Bool) (h : l.length ≤ 8) :
    (List.range 8).map (byteOfBits l).testBit = l ++ List.replicate (8 - l.length) false := by
  apply List.ext_getElem
  · simp; omega
  · intro i h1 h2
    simp only [List.getElem_map, List.getElem_range]
    rw [testBit_byteOfBits]
    by_cases hi : i < l.length
    · rw [List.getElem_append_left hi, List.getD_eq_getElem _ _ hi]
    · rw [List.getD_eq_default _ _ (by omega), List.getElem_append_right (by omega)]
      simp

theorem take_length_add {α : Type} (l1 l2 : List α) (m : Nat) :
    (l1 ++ l2).take (l1.length + m) = l1 ++ l2.take m := by
  induction l1 with
  | nil => simp
  | cons a t ih => simp [List.length_cons, Nat.succ_add, ih]

/-- Unpacking a packed bit list at its own length is the identity. -/
theorem unpackBits_packBits (bs : List Bool) :
    unpackBits (packBits bs) bs.length = bs := by
  induction bs using packBits.induct with
  | case1 => rfl
  | case2 b t ih =>
    simp only [unpackBits] at ih ⊢
    rw [packBits]
    simp only [List.map_cons, List.flatten_cons]
    by_cases h : t.length ≤ 7
    · have hdrop : t.drop 7 = [] := List.drop_eq_nil_of_le h
      have htake : (b :: t).take 8 = b :: t := List.take_of_length_le (by simp; omega)
      rw [hdrop, htake, show packBits ([] : List Bool) = [] by rw [packBits]]
      rw [List.map_nil, List.flatten_nil, List.append_nil]
      rw [testBits_byteOfBits (b :: t) (by simp; omega)]
      exact List.take_left' rfl
    · have hlen8 : ((b :: t).take 8).length = 8 := by simp; omega
      rw [testBits_byteOfBits ((b :: t).take 8) (le_of_eq hlen8), hlen8]
      rw [Nat.sub_self, List.replicate_zero, List.append_nil]
      have hsplit : (b :: t).length = ((b :: t).take 8).length + (t.drop 7).length := by
        simp; omega
      rw [hsplit, take_length_add, ih]
      show (b :: t).take 8 ++ (b :: t).drop 8 = b :: t
      exact List.take_append_drop 8 (b :: t)

theorem shiftLeft8_lor_eq (a b : Nat) (hb : b < 256) :
    (a <<< 8) ||| b = 256 * a + b := by
  apply Nat.eq_of_testBit_eq
  intro i
  rw [Nat.testBit_lor, Nat.testBit_shiftLeft,
    show (256 : Nat) * a + b = 2 ^ 8 * a + b by norm_num,
    Nat.testBit_mul_pow_two_add a (show b < 2 ^ 8 by omega) i]
  by_cases h : i < 8
  · simp [h, Nat.not_le_of_lt h]
  · have hle : (256 : Nat) ≤ 2 ^ i :=
      calc (256 : Nat) = 2 ^ 8 := by norm_num
        _ ≤ 2 ^ i := Nat.pow_le_pow_right (by omega) (by omega)
    have hbit : b.testBit i = false := Nat.testBit_lt_two_pow (by omega)
    simp [h, hbit, Nat.not_lt.mp h]

theorem encodeRegistersBE_length (vs : List Nat) :
    (encodeRegistersBE vs).length = 2 * vs.length := by
  induction vs with
  | nil => rfl
  | cons v t ih => simp [encodeRegistersBE] at ih ⊢; omega

theorem decodeRegisters_encode (vs : List Nat) (tail : List Nat) :
    (List.range vs.length).map (fun k =>
      (((encodeRegistersBE vs ++ tail).getD (2 * k) 0) <<< 8) |||
        (encodeRegistersBE vs ++ tail).getD (2 * k + 1) 0) = vs := by
  induction vs generalizing tail with
  | nil => rfl
  | cons v t ih =>
    have henc : encodeRegistersBE (v :: t) ++ tail =
        v / 256 :: v % 256 :: (encodeRegistersBE t ++ tail) := by
      simp [encodeRegistersBE]
    rw [List.length_cons, List.range_succ_eq_map, List.map_cons, List.map_map, henc]
    have hhead : ((((v / 256 :: v % 256 :: (encodeRegistersBE t ++ tail)).getD 0 0) <<< 8) |||
        (v / 256 :: v % 256 :: (encodeRegistersBE t ++ tail)).getD 1 0) = v := by
      rw [List.getD_cons_zero, List.getD_cons_succ, List.getD_cons_zero,
        shiftLeft8_lor_eq _ _ (Nat.mod_lt _ (by omega))]
      omega
    rw [hhead]
    have hmap : (List.range t.length).map ((fun k =>
        (((v / 256 :: v % 256 :: (encodeRegistersBE t ++ tail)).getD (2 * k) 0) <<< 8) |||
          (v / 256 :: v % 256 :: (encodeRegistersBE t ++ tail)).getD (2 * k + 1) 0) ∘ Nat.succ) =
        (List.range t.length).map (fun k =>
          (((encodeRegistersBE t ++ tail).getD (2 * k) 0) <<< 8) |||
            (encodeRegistersBE t ++ tail).getD (2 * k + 1) 0) := by
      apply List.map_congr_left
      intro k _
      show (((v / 256 :: v % 256 :: (encodeRegistersBE t ++ tail)).getD (2 * (k + 1)) 0) <<< 8) |||
          (v / 256 :: v % 256 :: (encodeRegistersBE t ++ tail)).getD (2 * (k + 1) + 1) 0 = _
      rw [show 2 * (k + 1) = 2 * k + 1 + 1 by ring,
        show 2 * k + 1 + 1 + 1 = 2 * k + 1 + 1 + 1 from rfl,
        List.getD_cons_succ, List.getD_cons_succ, List.getD_cons_succ, List.getD_cons_succ]
    rw [hmap, ih tail]

theorem getD_cons3 (a b c : Nat) (l : List Nat) (i : Nat) :
    (a :: b :: c :: l).getD (3 + i) 0 = l.getD i 0 := by
  rw [show 3 + i = i + 1 + 1 + 1 by omega]
  simp only [List.getD_cons_succ]

theorem getD_cons3' (a b c : Nat) (l : List Nat) (i : Nat) :
    (a :: b :: c :: l).getD (3 + i + 1) 0 = l.getD (i + 1) 0 := by
  rw [show 3 + i + 1 = i + 1 + 1 + 1 + 1 by omega]
  simp only [List.getD_cons_succ]

/-- C8: `build_request` lays the frame out as
`[slave][func][addr_hi][addr_lo][count_hi][count_lo][crc_lo][crc_hi]`, and for
every count in 1..16 each read parser recovers exactly the values a
well-formed synthetic response encodes: LSB-first packed booleans for
function codes 1 and 2, big-endian 16-bit integers for function code 3. -/
theorem build_parse_roundtrip :
    (∀ slave fc addr count, build_request slave fc addr count =
      [slave, fc, addr / 256, addr % 256, count / 256, count % 256,
       crc16 [slave, fc, addr / 256, addr % 256, count / 256, count % 256] % 256,
       crc16 [slave, fc, addr / 256, addr % 256, count / 256, count % 256] / 256]) ∧
    (∀ (bs : List Bool) slave c1 c2, 1 ≤ bs.length → bs.length ≤ 16 →
      read_coils_parse slave bs.length (some (syntheticBitResponse slave 1 bs c1 c2)) =
        some bs) ∧
    (∀ (bs : List Bool) slave c1 c2, 1 ≤ bs.length → bs.length ≤ 16 →
      read_discrete_inputs_parse slave bs.length
        (some (syntheticBitResponse slave 2 bs c1 c2)) = some bs) ∧
    (∀ (vs : List Nat) slave c1 c2, 1 ≤ vs.length → vs.length ≤ 16 →
      (∀ v ∈ vs, v < 65536) →
      read_holding_registers_parse slave (some (syntheticRegResponse slave vs c1 c2)) =
        some vs) := by
  have hbits : ∀ (fc : Nat) (bs : List Bool) slave c1 c2,
      parse_read_bits slave fc bs.length (some (syntheticBitResponse slave fc bs c1 c2)) =
        some bs := by
    intro fc bs slave c1 c2
    show (if 5 ≤ (syntheticBitResponse slave fc bs c1 c2).length then
        if (syntheticBitResponse slave fc bs c1 c2).getD 0 0 = slave ∧
            (syntheticBitResponse slave fc bs c1 c2).getD 1 0 = fc then
          some (unpackBits (((syntheticBitResponse slave fc bs c1 c2).drop 3).take
            ((syntheticBitResponse slave fc bs c1 c2).getD 2 0)) bs.length)
        else none
      else none) = some bs
    have hlen : 5 ≤ (syntheticBitResponse slave fc bs c1 c2).length := by
      simp [syntheticBitResponse]
    rw [if_pos hlen, if_pos ⟨rfl, rfl⟩]
    congr 1
    show unpackBits ((packBits bs ++ [c1, c2]).take (packBits bs).length) bs.length = bs
    rw [List.take_left' rfl]
    exact unpackBits_packBits bs
  refine ⟨fun slave fc addr count => rfl, ?_, ?_, ?_⟩
  · intro bs slave c1 c2 _ _
    exact hbits 1 bs slave c1 c2
  · intro bs slave c1 c2 _ _
    exact hbits 2 bs slave c1 c2
  · intro vs slave c1 c2 _ _ _
    show (if 5 ≤ (syntheticRegResponse slave vs c1 c2).length then
        if (syntheticRegResponse slave vs c1 c2).getD 0 0 = slave ∧
            (syntheticRegResponse slave vs c1 c2).getD 1 0 = 3 then
          if 3 + (syntheticRegResponse slave vs c1 c2).getD 2 0 + 2 ≤
              (syntheticRegResponse slave vs c1 c2).length then
            some ((List.range (((syntheticRegResponse slave vs c1 c2).getD 2 0 + 1) / 2)).map
              (fun k => (((syntheticRegResponse slave vs c1 c2).getD (3 + 2 * k) 0) <<< 8) |||
                (syntheticRegResponse slave vs c1 c2).getD (3 + 2 * k + 1) 0))
          else none
        else none
      else none) = some vs
    have hlen : (syntheticRegResponse slave vs c1 c2).length = 2 * vs.length + 5 := by
      simp [syntheticRegResponse, encodeRegistersBE_length]
    have hbc : (syntheticRegResponse slave vs c1 c2).getD 2 0 = 2 * vs.length := rfl
    rw [if_pos (by omega), if_pos ⟨rfl, rfl⟩, if_pos (by rw [hbc]; omega), hbc]
    congr 1
    rw [show (2 * vs.length + 1) / 2 = vs.length by omega]
    have hgd : ∀ k, (syntheticRegResponse slave vs c1 c2).getD (3 + 2 * k) 0 =
        (encodeRegistersBE vs ++ [c1, c2]).getD (2 * k) 0 := fun k =>
      getD_cons3 slave 3 (2 * vs.length) (encodeRegistersBE vs ++ [c1, c2]) (2 * k)
    have hgd' : ∀ k, (syntheticRegResponse slave vs c1 c2).getD (3 + 2 * k + 1) 0 =
        (encodeRegistersBE vs ++ [c1, c2]).getD (2 * k + 1) 0 := fun k =>
      getD_cons3' slave 3 (2 * vs.length) (encodeRegistersBE vs ++ [c1, c2]) (2 * k)
    calc (List.range vs.length).map
          (fun k => (((syntheticRegResponse slave vs c1 c2).getD (3 + 2 * k) 0) <<< 8) |||
            (syntheticRegResponse slave vs c1 c2).getD (3 + 2 * k + 1) 0)
        = (List.range vs.length).map
          (fun k => (((encodeRegistersBE vs ++ [c1, c2]).getD (2 * k) 0) <<< 8) |||
            (encodeRegistersBE vs ++ [c1, c2]).getD (2 * k + 1) 0) := by
          apply List.map_congr_left
          intro k _
          rw [hgd, hgd']
      _ = vs := decodeRegisters_encode vs [c1, c2]

/-- C8 (witness): the round trip at a concrete 3-bit coil group, a concrete
2-bit discrete-input group and a concrete 2-register group. -/
theorem build_parse_roundtrip_witness :
    read_coils_parse 1 3 (some (syntheticBitResponse 1 1 [true, false, true] 9 9)) =
      some [true, false, true] ∧
    read_discrete_inputs_parse 1 2 (some (syntheticBitResponse 1 2 [false, true] 9 9)) =
      some [false, true] ∧
    read_holding_registers_parse 1 (some (syntheticRegResponse 1 [500, 65535] 9 9)) =
      some [500, 65535] := by
  refine ⟨?_, ?_, ?_⟩
  · exact build_parse_roundtrip.2.1 [true, false, true] 1 9 9 (by decide) (by decide)
  · exact build_parse_roundtrip.2.2.1 [false, true] 1 9 9 (by decide) (by decide)
  · exact build_parse_roundtrip.2.2.2 [500, 65535] 1 9 9 (by decide) (by decide)
      (by decide)

/-! ## ESP32 polling engine (`ESP32PLCBridge.poll_plc_data`, lines 327-384) -/

/-- Zero-padded three-digit formatting, `f'{i:03d}'`. -/
def pad3 (n : Nat) : String :=
  if n < 10 then "00" ++ toString n
  else if n < 100 then "0" ++ toString n
  else toString n

/-- A key of the mixed-key `data_registers` dict, which holds both
`'DS001'`-style strings and plain numbers. -/
inductive DKey where
  | str (s : String)
  | num (n : Nat)
  deriving Repr, DecidableEq

/-- The `plc_data` dict of `ESP32PLCBridge` (the fields the poll loop
touches). -/
structure PlcData where
  connected : Bool
  last_update : Nat
  communication_errors : Nat
  input_status : List (String × Bool)
  digital_inputs : List (Nat × Bool)
  coil_status : List (String × Bool)
  digital_outputs : List (Nat × Bool)
  data_registers : List (DKey × Nat)
  deriving Repr, DecidableEq

/-- `{f'X{i:03d}': inputs[i] for i in range(len(inputs))}`. -/
def mkInputStatus (inputs : List Bool) : List (String × Bool) :=
  (List.range inputs.length).map (fun i => ("X" ++ pad3 i, inputs.getD i false))

/-- `{i+1: inputs[i] for i in range(len(inputs))}` (also used for coils). -/
def mkNumbered (l : List Bool) : List (Nat × Bool) :=
  (List.range l.length).map (fun i => (i + 1, l.getD i false))

/-- `{f'Y{i:03d}': coils[i] for i in range(len(coils))}`. -/
def mkCoilStatus (coils : List Bool) : List (String × Bool) :=
  (List.range coils.length).map (fun i => ("Y" ++ pad3 i, coils.getD i false))

/-- The fresh `data_registers` dict: `DS{i+1:03d}` string keys from the
comprehension, then the numbered keys `i+1` added by the following loop. -/
def mkDataRegisters (regs : List Nat) : List (DKey × Nat) :=
  (List.range regs.length).map (fun i => (DKey.str ("DS" ++ pad3 (i + 1)), regs.getD i 0)) ++
    (List.range regs.length).map (fun i => (DKey.num (i + 1), regs.getD i 0))

/-- Python truthiness of a read result: `if inputs:` is true exactly when the
read returned a non-`None`, non-empty list. -/
def truthyList {α : Type} : Option (List α) → Bool
  | none => false
  | some l => !l.isEmpty

/-- `ESP32PLCBridge.poll_plc_data`, given the decoded results of the three
group reads for this cycle (`None` models a timeout, malformed frame or
header mismatch). The embedding covers the path where no exception escapes
the dict updates; the script-engine call (which touches only
`script_results`) is outside the model. -/
def poll_plc_data (st : PlcData) (now : Nat)
    (inputs coils : Option (List Bool)) (registers : Option (List Nat)) :
    PlcData × Bool :=
  let st := if truthyList inputs then
      { st with input_status := mkInputStatus (inputs.getD []),
                digital_inputs := mkNumbered (inputs.getD []),
                connected := true }
    else st
  let st := if truthyList coils then
      { st with coil_status := mkCoilStatus (coils.getD []),
                digital_outputs := mkNumbered (coils.getD []) }
    else st
  let st := if truthyList registers then
      { st with data_registers := mkDataRegisters (registers.getD []) }
    else st
  let st := { st with last_update := now }
  if truthyList inputs || truthyList coils || truthyList registers then
    (st, true)
  else
    ({ st with communication_errors := st.communication_errors + 1 }, false)

/-! ## Raspberry Pi polling engine (`PLCCommunicator.poll_data`, lines
138-189 of plc_communication.py, hardware path) -/

/-- Outcome of one pymodbus group read: a decoded value, a Modbus error
result (`result.isError()`), or a raised exception. -/
inductive ReadOutcome (α : Type) where
  | ok (v : α)
  | err
  | exn
  deriving Repr, DecidableEq

/-- The `plc_status` dict of `PLCCommunicator` (fields the poll touches). -/
structure PiStatus where
  connected : Bool
  last_update : Option Nat
  communication_errors : Nat
  coil_status : List (String × Bool)
  input_status : List (String × Bool)
  data_registers : List (String × Nat)
  deriving Repr, DecidableEq

def mkPiCoilStatus (bits : List Bool) : List (String × Bool) :=
  (List.range bits.length).map (fun i => ("Y" ++ pad3 i, bits.getD i false))

def mkPiInputStatus (bits : List Bool) : List (String × Bool) :=
  (List.range bits.length).map (fun i => ("X" ++ pad3 i, bits.getD i false))

def mkPiDataRegisters (regs : List Nat) : List (String × Nat) :=
  (List.range regs.length).map (fun i => ("DS" ++ pad3 (i + 1), regs.getD i 0))

/-- One group step of `poll_data`: `none` when the read raised (aborting the
cycle), otherwise the state with that group's dict replaced on a non-error
result and untouched on `result.isError()`. -/
def applyGroup {α : Type} (st : PiStatus) (upd : α → PiStatus) :
    ReadOutcome α → Option PiStatus
  | .exn => none
  | .err => some st
  | .ok v => some (upd v)

/-- `PLCCommunicator.poll_data` on the hardware path (connected, client
present, pymodbus available, simulation off): reads coils, then discrete
inputs, then holding registers; an exception anywhere increments the error
counter and returns false; otherwise `last_update` is set and it returns
true. -/
def poll_data (st : PiStatus) (now : Nat) (coils inputs : ReadOutcome (List Bool))
    (registers : ReadOutcome (List Nat)) : PiStatus × Bool :=
  if st.connected then
    match applyGroup st (fun l => { st with coil_status := mkPiCoilStatus l }) coils with
    | none => ({ st with communication_errors := st.communication_errors + 1 }, false)
    | some st1 =>
      match applyGroup st1 (fun l => { st1 with input_status := mkPiInputStatus l }) inputs with
      | none => ({ st1 with communication_errors := st1.communication_errors + 1 }, false)
      | some st2 =>
        match applyGroup st2
            (fun l => { st2 with data_registers := mkPiDataRegisters l }) registers with
        | none => ({ st2 with communication_errors := st2.communication_errors + 1 }, false)
        | some st3 => ({ st3 with last_update := some now }, true)
  else (st, false)

/-- The freshly constructed `plc_data` dict (ESP32 `__init__`, empty group
mappings, zero counters). -/
def espInit : PlcData :=
  { connected := false, last_update := 0, communication_errors := 0,
    input_status := [], digital_inputs := [], coil_status := [],
    digital_outputs := [], data_registers := [] }

/-- An ESP32 state carrying a previous non-empty input mapping. -/
def espPrev : PlcData := { espInit with input_status := [("X000", true)] }

/-- A connected Pi communicator status with zero error count. -/
def piInit : PiStatus :=
  { connected := true, last_update := none, communication_errors := 0,
    coil_status := [], input_status := [], data_registers := [] }

/-- C1 (counterexample): in the ESP32 bridge a cycle in which every group
read fails returns `false` yet still sets `last_update` to the current time;
and the Pi `poll_data` returns `true` in a cycle in which every group read
came back as a Modbus error, i.e. with no group succeeding. -/
theorem poll_last_update_counterexample :
    (poll_plc_data espInit 5 none none none).2 = false ∧
    (poll_plc_data espInit 5 none none none).1.last_update = 5 ∧
    espInit.last_update = 0 ∧
    (poll_data piInit 7 ReadOutcome.err ReadOutcome.err ReadOutcome.err).2 = true := by
  decide

/-- C1 (amended): the ESP32 `poll_plc_data` returns true iff at least one
group produced a non-empty decode, but sets `last_update` to the current time
in every cycle that completes the read phase, even when it returns false; the
Pi `poll_data` (connected, hardware path) returns true iff no group read
raised an exception — even when every read returned a Modbus error — and sets
`last_update` exactly in the cycles that return true, leaving it unchanged
otherwise. -/
theorem poll_return_and_last_update :
    (∀ st now inputs coils registers,
      ((poll_plc_data st now inputs coils registers).2 = true ↔
        (truthyList inputs || truthyList coils || truthyList registers) = true) ∧
      (poll_plc_data st now inputs coils registers).1.last_update = now) ∧
    (∀ st now coils inputs registers, st.connected = true →
      ((poll_data st now coils inputs registers).2 = true ↔
        (coils ≠ ReadOutcome.exn ∧ inputs ≠ ReadOutcome.exn ∧
          registers ≠ ReadOutcome.exn)) ∧
      ((poll_data st now coils inputs registers).2 = true →
        (poll_data st now coils inputs registers).1.last_update = some now) ∧
      ((poll_data st now coils inputs registers).2 = false →
        (poll_data st now coils inputs registers).1.last_update = st.last_update)) := by
  constructor
  · intro st now inputs coils registers
    cases hi : truthyList inputs <;> cases hc : truthyList coils <;>
      cases hr : truthyList registers <;> simp [poll_plc_data, hi, hc, hr]
  · intro st now coils inputs registers hconn
    cases coils <;> cases inputs <;> cases registers <;>
      simp [poll_data, applyGroup, hconn]

/-- C1 (witness): `poll_return_and_last_update` applied to a connected Pi
state on an all-error cycle. -/
theorem poll_return_and_last_update_witness :
    piInit.connected = true ∧
    (poll_data piInit 7 ReadOutcome.err ReadOutcome.err ReadOutcome.err).1.last_update =
      some 7 :=
  ⟨by decide,
    ((poll_return_and_last_update.2 piInit 7 ReadOutcome.err ReadOutcome.err
      ReadOutcome.err (by decide)).2.1) (by decide)⟩

/-- C4 (counterexample): an empty decode is non-null yet reachable from a
real frame (a discrete-input response declaring zero data bytes), and on such
a "successful" read the ESP32 poll leaves the previous input mapping in place
instead of replacing it as a unit. -/
theorem poll_empty_decode_counterexample :
    read_discrete_inputs_parse 1 16 (some [1, 2, 0, 9, 9]) = some [] ∧
    (poll_plc_data espPrev 5 (some []) none none).1.input_status = [("X000", true)] ∧
    mkInputStatus [] = [] := by
  decide

/-- C4 (amended): per group and cycle, the ESP32 poll replaces a group's
mappings as a whole exactly when that group's decode is non-null and
non-empty, and leaves them exactly as they were otherwise (null or empty
decode); the Pi poll replaces a group's mapping exactly when its read
returned a non-error result and no earlier read raised, leaving it untouched
on a Modbus error or an exception-aborted cycle. No group is ever partially
overwritten. -/
theorem poll_group_frame_effect :
    (∀ st now inputs coils registers,
      ((poll_plc_data st now inputs coils registers).1.input_status =
        if truthyList inputs then mkInputStatus (inputs.getD []) else st.input_status) ∧
      ((poll_plc_data st now inputs coils registers).1.digital_inputs =
        if truthyList inputs then mkNumbered (inputs.getD []) else st.digital_inputs) ∧
      ((poll_plc_data st now inputs coils registers).1.coil_status =
        if truthyList coils then mkCoilStatus (coils.getD []) else st.coil_status) ∧
      ((poll_plc_data st now inputs coils registers).1.digital_outputs =
        if truthyList coils then mkNumbered (coils.getD []) else st.digital_outputs) ∧
      ((poll_plc_data st now inputs coils registers).1.data_registers =
        if truthyList registers then mkDataRegisters (registers.getD [])
        else st.data_registers)) ∧
    (∀ st now coils inputs registers, st.connected = true →
      ((poll_data st now coils inputs registers).1.coil_status =
        match coils with
        | ReadOutcome.ok l => mkPiCoilStatus l
        | _ => st.coil_status) ∧
      ((poll_data st now coils inputs registers).1.input_status =
        match coils, inputs with
        | ReadOutcome.exn, _ => st.input_status
        | _, ReadOutcome.ok l => mkPiInputStatus l
        | _, _ => st.input_status) ∧
      ((poll_data st now coils inputs registers).1.data_registers =
        match coils, inputs, registers with
        | ReadOutcome.exn, _, _ => st.data_registers
        | _, ReadOutcome.exn, _ => st.data_registers
        | _, _, ReadOutcome.ok l => mkPiDataRegisters l
        | _, _, _ => st.data_registers)) := by
  constructor
  · intro st now inputs coils registers
    cases hi : truthyList inputs <;> cases hc : truthyList coils <;>
      cases hr : truthyList registers <;>
        simp [poll_plc_data, hi, hc, hr]
  · intro st now coils inputs registers hconn
    cases coils <;> cases inputs <;> cases registers <;>
      simp [poll_data, applyGroup, hconn]

/-- C4 (witness): `poll_group_frame_effect` on a connected Pi state in a
cycle where coils succeed, inputs error and registers raise. -/
theorem poll_group_frame_effect_witness :
    piInit.connected = true ∧
    (poll_data piInit 3 (ReadOutcome.ok [true]) ReadOutcome.err
      ReadOutcome.exn).1.coil_status = mkPiCoilStatus [true] ∧
    (poll_data piInit 3 (ReadOutcome.ok [true]) ReadOutcome.err
      ReadOutcome.exn).1.input_status = piInit.input_status :=
  ⟨by decide,
    (poll_group_frame_effect.2 piInit 3 (ReadOutcome.ok [true]) ReadOutcome.err
      ReadOutcome.exn (by decide)).1,
    (poll_group_frame_effect.2 piInit 3 (ReadOutcome.ok [true]) ReadOutcome.err
      ReadOutcome.exn (by decide)).2.1⟩

/-- C5 (counterexample): a cycle in which exactly two ESP32 groups fail while
one succeeds leaves `communication_errors` unchanged (the claim demands +2),
and a Pi cycle in which all three reads return Modbus errors also leaves the
counter unchanged (the claim demands +3). -/
theorem communication_errors_counterexample :
    (poll_plc_data espInit 5 (some [true]) none none).1.communication_errors = 0 ∧
    (poll_data piInit 7 ReadOutcome.err ReadOutcome.err
      ReadOutcome.err).1.communication_errors = 0 := by
  decide

/-- C5 (amended): the ESP32 poll increments `communication_errors` by exactly
one in a cycle where all three groups fail, and not at all when any group
succeeds; the Pi poll increments it by exactly one only when some read raises
an exception (which aborts the cycle) — a group read that merely returns a
Modbus error never increments the counter. -/
theorem communication_errors_increment :
    (∀ st now inputs coils registers,
      (poll_plc_data st now inputs coils registers).1.communication_errors =
        st.communication_errors +
          if (truthyList inputs || truthyList coils || truthyList registers) = true
          then 0 else 1) ∧
    (∀ st now coils inputs registers, st.connected = true →
      (poll_data st now coils inputs registers).1.communication_errors =
        st.communication_errors +
          if coils = ReadOutcome.exn ∨ inputs = ReadOutcome.exn ∨
              registers = ReadOutcome.exn
          then 1 else 0) := by
  constructor
  · intro st now inputs coils registers
    cases hi : truthyList inputs <;> cases hc : truthyList coils <;>
      cases hr : truthyList registers <;> simp [poll_plc_data, hi, hc, hr]
  · intro st now coils inputs registers hconn
    cases coils <;> cases inputs <;> cases registers <;>
      simp [poll_data, applyGroup, hconn]

/-- C5 (witness): `communication_errors_increment` on a connected Pi state in
an exception cycle. -/
theorem communication_errors_increment_witness :
    piInit.connected = true ∧
    (poll_data piInit 7 ReadOutcome.exn ReadOutcome.err
      ReadOutcome.err).1.communication_errors = piInit.communication_errors + 1 := by
  refine ⟨by decide, ?_⟩
  have h := communication_errors_increment.2 piInit 7 ReadOutcome.exn ReadOutcome.err
    ReadOutcome.err (by decide)
  simpa using h

/-! ## `PLCCommunicator.get_status` and Python copy semantics (lines 254-262)

`get_status` returns `self.plc_status.copy()` — a *shallow* dict copy. The
top level is a fresh object each call (a plain Lean value here), but the
nested group dicts stay shared by reference. The sharing is made explicit by
a small heap: nested dicts live at numeric addresses, and the status object
holds addresses. -/

/-- A Python value stored in a nested status dict. -/
inductive Val where
  | b (x : Bool)
  | n (x : Nat)
  | s (x : String)
  deriving Repr, DecidableEq

/-- A Python dict with string keys, in insertion order. -/
abbrev Dict := List (String × Val)

/-- `d[key] = v`: replace in place if the key exists, else append. -/
def setKey (m : Dict) (key : String) (v : Val) : Dict :=
  if m.any (fun p => p.1 = key) then
    m.map (fun p => if p.1 = key then (key, v) else p)
  else m ++ [(key, v)]

/-- Store of nested dicts, addressed by allocation number. -/
abbrev Heap := Nat → Dict

/-- Mutate the nested dict at `ref` (what `snapshot['coil_status'][k] = v`
does through any alias of that dict). -/
def setGroupKey (h : Heap) (ref : Nat) (key : String) (v : Val) : Heap :=
  fun r => if r = ref then setKey (h ref) key v else h r

/-- The top level of the `plc_status` dict: scalar fields by value, the three
group dicts by reference. `copy()` copies exactly this record. -/
structure StatusObj where
  connected : Bool
  last_update : Option Nat
  communication_errors : Nat
  data_registers : Nat
  coil_status : Nat
  input_status : Nat
  data_age_seconds : Option Nat
  data_fresh : Option Bool
  deriving Repr, DecidableEq

/-- The communicator state relevant to `get_status`: the heap of nested
dicts, the live `plc_status` object, `self.last_update` and the configured
poll interval. -/
structure CommState where
  heap : Heap
  status : StatusObj
  lastUpdate : Option Nat
  pollInterval : Nat

/-- `PLCCommunicator.get_status` at time `now`: when a poll has happened it
first sets `data_age_seconds` and `data_fresh` on the live status object,
then returns `self.plc_status.copy()` — the record value, whose group fields
are the same heap addresses as the live object's. -/
def get_status (st : CommState) (now : Nat) : StatusObj × CommState :=
  match st.lastUpdate with
  | some t =>
    let status := { st.status with
      data_age_seconds := some (now - t),
      data_fresh := some (decide (now - t < 2 * st.pollInterval)) }
    (status, { st with status := status })
  | none => (st.status, st)

/-- A concrete communicator: one poll happened at time 0, poll interval 1,
and the live coil dict holds `Y000 := false`. -/
def commInit : CommState :=
  { heap := fun r => if r = 1 then [("Y000", Val.b false)] else [],
    status := { connected := true, last_update := some 0, communication_errors := 0,
                data_registers := 0, coil_status := 1, input_status := 2,
                data_age_seconds := none, data_fresh := none },
    lastUpdate := some 0,
    pollInterval := 1 }

/-- C6 (counterexample): two `get_status` calls with no intervening poll can
differ in `data_fresh` (not only `data_age_seconds`) once the data ages past
twice the poll interval; and because the copy is shallow, assigning into the
nested coil dict of a returned snapshot changes the coil data a later
`get_status` exposes. -/
theorem get_status_shallow_copy_counterexample :
    (get_status commInit 1).1.data_fresh = some true ∧
    (get_status (get_status commInit 1).2 3).1.data_fresh = some false ∧
    (let snap := (get_status commInit 1).1
     let live := (get_status commInit 1).2
     let mutated := { live with
       heap := setGroupKey live.heap snap.coil_status "Y000" (Val.b true) }
     (get_status mutated 3).2.heap ((get_status mutated 3).1.coil_status) =
       [("Y000", Val.b true)]) ∧
    commInit.heap commInit.status.coil_status = [("Y000", Val.b false)] := by
  refine ⟨rfl, rfl, ?_, rfl⟩
  show setGroupKey commInit.heap 1 "Y000" (Val.b true) 1 = [("Y000", Val.b true)]
  decide

/-- C6 (amended): `get_status` returns a fresh top-level snapshot each call,
and with no intervening poll two calls agree on every field except
`data_age_seconds` and `data_fresh` (the freshness flag can flip as the data
ages); the copy is shallow, however: the returned snapshot's nested group
dicts are the very heap references of the live status object, so a mutation
through a returned snapshot's group dict is visible in the data a later
`get_status` exposes. -/
theorem get_status_copy_semantics :
    ∀ st now1 now2,
      ({ (get_status st now1).1 with data_age_seconds := none, data_fresh := none } =
        { (get_status (get_status st now1).2 now2).1 with
            data_age_seconds := none, data_fresh := none }) ∧
      ((get_status st now1).1.coil_status = (get_status st now1).2.status.coil_status ∧
       (get_status st now1).1.input_status = (get_status st now1).2.status.input_status ∧
       (get_status st now1).1.data_registers =
         (get_status st now1).2.status.data_registers) ∧
      ((get_status st now1).2.heap = st.heap) ∧
      (∀ key v,
        ((get_status { (get_status st now1).2 with
            heap := setGroupKey ((get_status st now1).2).heap
              ((get_status st now1).1.coil_status) key v } now2).2.heap)
          ((get_status { (get_status st now1).2 with
            heap := setGroupKey ((get_status st now1).2).heap
              ((get_status st now1).1.coil_status) key v } now2).1.coil_status) =
          setKey (st.heap st.status.coil_status) key v) := by
  intro st now1 now2
  cases h : st.lastUpdate <;>
    simp [get_status, h, setGroupKey]

/-! ## Script engine (`ScriptExecutor`, RaspberryPi/custom_scripts.py lines
201-303, with the registry toggle of web_server.py lines 204-222) -/

/-- What a script's `execute` function does: from its own persistent state
dict and the shared GPIO pin-value map it produces the updated state, the
updated pin map, and either a result dict or a raised exception. As with
Python `exec`, effects performed before a raise persist. -/
abbrev ScriptCode :=
  Dict → List (Nat × Bool) → Dict × List (Nat × Bool) × Except String Dict

/-- An entry of `ScriptEngine.scripts`; `code := none` models code that
defines no `execute` function. -/
structure Script where
  name : String
  enabled : Bool
  gpio_pins : List Nat
  code : Option ScriptCode

/-- The executor's mutable context: GPIO pin values (`GPIOController.
pin_states`, value component) and `ScriptEngine.script_states`. -/
structure SEnv where
  pinStates : List (Nat × Bool)
  states : List (String × Dict)
  deriving Repr, DecidableEq

/-- `script_states[id] = v` (replace in place or append). -/
def setScriptState (m : List (String × Dict)) (id : String) (v : Dict) :
    List (String × Dict) :=
  if m.any (fun p => p.1 = id) then
    m.map (fun p => if p.1 = id then (id, v) else p)
  else m ++ [(id, v)]

/-- The pin-setup loop of `execute_script`: `setup_pin` for each bound pin
not yet tracked (initial value `False`). -/
def ensurePins (env : SEnv) (pins : List Nat) : SEnv :=
  pins.foldl
    (fun e pin =>
      if e.pinStates.any (fun p => p.1 = pin) then e
      else { e with pinStates := e.pinStates ++ [(pin, false)] })
    env

/-- Lines 244-246: create the script's state dict on first execution only. -/
def ensureState (env : SEnv) (id : String) : SEnv :=
  if env.states.any (fun p => p.1 = id) then env
  else { env with states := env.states ++ [(id, [])] }

/-- `ScriptExecutor.execute_script`: unknown id and disabled scripts return
fixed records; otherwise pins and state are ensured, the code runs, its state
effects are stored back, and the result is tagged with name/id/timestamp —
or, when the code raised, replaced by an error record tagged with the id and
timestamp. -/
def execute_script (scripts : List (String × Script)) (env : SEnv) (id : String)
    (now : Nat) : SEnv × Dict :=
  match scripts.lookup id with
  | none => (env, [("error", Val.s ("Script " ++ id ++ " not found"))])
  | some script =>
    if script.enabled = false then (env, [("status", Val.s "Script disabled")])
    else
      let env2 := ensureState (ensurePins env script.gpio_pins) id
      match script.code with
      | none => (env2, [("error", Val.s "Script must define an execute function")])
      | some f =>
        let r := f ((env2.states.lookup id).getD []) env2.pinStates
        let env3 : SEnv :=
          { pinStates := r.2.1, states := setScriptState env2.states id r.1 }
        match r.2.2 with
        | Except.ok result =>
          (env3, setKey (setKey (setKey result "script_name" (Val.s script.name))
            "script_id" (Val.s id)) "timestamp" (Val.n now))
        | Except.error e =>
          (env3, [("error", Val.s ("Script execution failed: " ++ e)),
                  ("script_id", Val.s id), ("timestamp", Val.n now)])

/-- One iteration of the `execute_all_enabled_scripts` loop. -/
def batchStep (scripts : List (String × Script)) (now : Nat)
    (acc : SEnv × List (String × Dict)) (p : String × Script) :
    SEnv × List (String × Dict) :=
  if p.2.enabled then
    ((execute_script scripts acc.1 p.1 now).1,
      acc.2 ++ [(p.1, (execute_script scripts acc.1 p.1 now).2)])
  else acc

/-- `ScriptExecutor.execute_all_enabled_scripts`: run every enabled script in
registry order, collecting per-script result records (the `gpio_states`
aggregate entry is read off the returned environment). -/
def execute_all_enabled_scripts (scripts : List (String × Script)) (env : SEnv)
    (now : Nat) : SEnv × List (String × Dict) :=
  scripts.foldl (batchStep scripts now) (env, [])

/-- The web-server toggle endpoint: set the `enabled` flag of the script
registry entry, touching nothing else. -/
def setEnabled (scripts : List (String × Script)) (id : String) (b : Bool) :
    List (String × Script) :=
  scripts.map (fun p => if p.1 = id then (p.1, { p.2 with enabled := b }) else p)

theorem lookup_append_cons_self {β : Type} (l₁ l₂ : List (String × β)) (id : String)
    (b : β) (h : ∀ p ∈ l₁, p.1 ≠ id) :
    (l₁ ++ (id, b) :: l₂).lookup id = some b := by
  induction l₁ with
  | nil => simp
  | cons q t ih =>
    obtain ⟨qk, qv⟩ := q
    have hq : (id == qk) = false := by
      simp only [beq_eq_false_iff_ne]
      exact fun he => (h (qk, qv) (by simp)) he.symm
    simp only [List.cons_append, List.lookup_cons, hq]
    exact ih (fun p hp => h p (by simp [hp]))

theorem lookup_append_cons_ne {β : Type} (l₁ l₂ : List (String × β)) (id id' : String)
    (b₁ b₂ : β) (h : id' ≠ id) :
    (l₁ ++ (id, b₁) :: l₂).lookup id' = (l₁ ++ (id, b₂) :: l₂).lookup id' := by
  have hne : (id' == id) = false := by simp [h]
  rw [List.lookup_append, List.lookup_append]
  congr 1
  simp [List.lookup_cons, hne]

theorem lookup_setEnabled (scripts : List (String × Script)) (id : String) (b : Bool) :
    (setEnabled scripts id b).lookup id =
      (scripts.lookup id).map (fun s => { s with enabled := b }) := by
  induction scripts with
  | nil => rfl
  | cons p t ih =>
    obtain ⟨pk, ps⟩ := p
    by_cases hp : pk = id
    · subst hp
      simp [setEnabled, List.lookup_cons]
    · have hne : (id == pk) = false := by
        simp only [beq_eq_false_iff_ne]
        exact fun he => hp he.symm
      simp only [setEnabled, List.map_cons, if_neg hp, List.lookup_cons, hne] at ih ⊢
      exact ih

theorem any_of_lookup {β : Type} {m : List (String × β)} {id : String} {v : β}
    (h : m.lookup id = some v) : m.any (fun p => p.1 = id) = true := by
  induction m with
  | nil => simp at h
  | cons q t ih =>
    obtain ⟨qk, qv⟩ := q
    rw [List.lookup_cons] at h
    by_cases hq : (id == qk) = true
    · simp only [beq_iff_eq] at hq
      simp [hq]
    · have hqf : (id == qk) = false := by
        cases hb : (id == qk) with
        | false => rfl
        | true => exact absurd hb hq
      rw [hqf] at h
      simp [ih h]

theorem batch_res_factor (S : List (String × Script)) (now : Nat)
    (l : List (String × Script)) :
    ∀ (env : SEnv) (res : List (String × Dict)),
      l.foldl (batchStep S now) (env, res) =
        ((l.foldl (batchStep S now) (env, [])).1,
          res ++ (l.foldl (batchStep S now) (env, [])).2) := by
  induction l with
  | nil => intro env res; simp
  | cons p t ih =>
    intro env res
    simp only [List.foldl_cons]
    cases hp : p.2.enabled
    · simp only [batchStep, hp, Bool.false_eq_true, if_false]
      exact ih env res
    · simp only [batchStep, hp, if_true]
      rw [ih _ (res ++ [(p.1, (execute_script S env p.1 now).2)]),
          ih _ ([] ++ [(p.1, (execute_script S env p.1 now).2)])]
      simp

theorem batch_congr (S₁ S₂ : List (String × Script)) (now : Nat)
    (l : List (String × Script))
    (h : ∀ p ∈ l, S₁.lookup p.1 = S₂.lookup p.1) :
    ∀ a, l.foldl (batchStep S₁ now) a = l.foldl (batchStep S₂ now) a := by
  induction l with
  | nil => intro a; rfl
  | cons p t ih =>
    intro a
    simp only [List.foldl_cons]
    have hex : execute_script S₁ a.1 p.1 now = execute_script S₂ a.1 p.1 now := by
      unfold execute_script
      rw [h p (by simp)]
    have hstep : batchStep S₁ now a p = batchStep S₂ now a p := by
      simp [batchStep, hex]
    rw [hstep]
    exact ih (fun q hq => h q (by simp [hq])) _

theorem batch_res_keys (S : List (String × Script)) (now : Nat)
    (l : List (String × Script)) :
    ∀ (env : SEnv) (res : List (String × Dict)) (q : String × Dict),
      q ∈ (l.foldl (batchStep S now) (env, res)).2 →
      q ∈ res ∨ ∃ p ∈ l, q.1 = p.1 := by
  induction l with
  | nil =>
    intro env res q hq
    exact Or.inl hq
  | cons p t ih =>
    intro env res q hq
    simp only [List.foldl_cons] at hq
    cases hp : p.2.enabled
    · rw [show batchStep S now (env, res) p = (env, res) by simp [batchStep, hp]] at hq
      rcases ih env res q hq with h | ⟨p', hp', hk⟩
      · exact Or.inl h
      · exact Or.inr ⟨p', by simp [hp'], hk⟩
    · rw [show batchStep S now (env, res) p =
          ((execute_script S env p.1 now).1,
            res ++ [(p.1, (execute_script S env p.1 now).2)]) by
        simp [batchStep, hp]] at hq
      rcases ih _ _ q hq with h | ⟨p', hp', hk⟩
      · rcases List.mem_append.mp h with h' | h'
        · exact Or.inl h'
        · simp only [List.mem_singleton] at h'
          exact Or.inr ⟨p, by simp, by rw [h']⟩
      · exact Or.inr ⟨p', by simp [hp'], hk⟩

/-- C7: in a batch over the enabled scripts, a script whose code raises is
recorded as an error result carrying its id and the timestamp, the exception
never escapes `execute_all_enabled_scripts`, and — holding the failing
script's state effects fixed — every other enabled script's result and the
final engine state are exactly what they would be had that script returned
normally instead of raising. -/
theorem script_error_isolation
    (pre post : List (String × Script)) (nm : String) (pins : List Nat)
    (gs : Dict → List (Nat × Bool) → Dict × List (Nat × Bool))
    (e : String) (d : Dict) (env : SEnv) (now : Nat) (id : String)
    (hfresh : ∀ p ∈ pre ++ post, p.1 ≠ id) :
    (execute_all_enabled_scripts
        (pre ++ (id, ⟨nm, true, pins,
          some (fun st ps => ((gs st ps).1, (gs st ps).2, Except.error e))⟩) :: post)
        env now).2.lookup id =
      some [("error", Val.s ("Script execution failed: " ++ e)),
            ("script_id", Val.s id), ("timestamp", Val.n now)] ∧
    (execute_all_enabled_scripts
        (pre ++ (id, ⟨nm, true, pins,
          some (fun st ps => ((gs st ps).1, (gs st ps).2, Except.error e))⟩) :: post)
        env now).1 =
      (execute_all_enabled_scripts
        (pre ++ (id, ⟨nm, true, pins,
          some (fun st ps => ((gs st ps).1, (gs st ps).2, Except.ok d))⟩) :: post)
        env now).1 ∧
    (∀ id', id' ≠ id →
      (execute_all_enabled_scripts
          (pre ++ (id, ⟨nm, true, pins,
            some (fun st ps => ((gs st ps).1, (gs st ps).2, Except.error e))⟩) :: post)
          env now).2.lookup id' =
        (execute_all_enabled_scripts
          (pre ++ (id, ⟨nm, true, pins,
            some (fun st ps => ((gs st ps).1, (gs st ps).2, Except.ok d))⟩) :: post)
          env now).2.lookup id') := by
  have hpre : ∀ p ∈ pre, p.1 ≠ id := fun p hp => hfresh p (List.mem_append.mpr (Or.inl hp))
  have hpost : ∀ p ∈ post, p.1 ≠ id := fun p hp => hfresh p (List.mem_append.mpr (Or.inr hp))
  set failing : Script :=
    ⟨nm, true, pins, some (fun st ps => ((gs st ps).1, (gs st ps).2, Except.error e))⟩ with hfs
  set succeeding : Script :=
    ⟨nm, true, pins, some (fun st ps => ((gs st ps).1, (gs st ps).2, Except.ok d))⟩ with hss
  set SF := pre ++ (id, failing) :: post with hSF
  set SS := pre ++ (id, succeeding) :: post with hSS
  have hagree : ∀ k, k ≠ id → SF.lookup k = SS.lookup k := fun k hk =>
    lookup_append_cons_ne pre post id k failing succeeding hk
  have hlookF : SF.lookup id = some failing := lookup_append_cons_self pre post id failing hpre
  have hlookS : SS.lookup id = some succeeding :=
    lookup_append_cons_self pre post id succeeding hpre
  -- the pre phase is identical in both batches
  have hApre : pre.foldl (batchStep SF now) (env, []) =
      pre.foldl (batchStep SS now) (env, []) :=
    batch_congr SF SS now pre (fun p hp => hagree p.1 (hpre p hp)) _
  set A := pre.foldl (batchStep SF now) (env, []) with hA
  -- the failing and succeeding scripts have the same state effects
  have henvmid : (execute_script SF A.1 id now).1 = (execute_script SS A.1 id now).1 := by
    unfold execute_script
    rw [hlookF, hlookS, hfs, hss]
    rfl
  -- both batches decompose as pre-results, the id entry, then the post phase
  have hdecompF : execute_all_enabled_scripts SF env now =
      ((post.foldl (batchStep SF now) ((execute_script SF A.1 id now).1, [])).1,
        A.2 ++ (id, (execute_script SF A.1 id now).2) ::
          (post.foldl (batchStep SF now) ((execute_script SF A.1 id now).1, [])).2) := by
    show (pre ++ (id, failing) :: post).foldl (batchStep SF now) (env, []) = _
    rw [List.foldl_append, List.foldl_cons, ← hA]
    rw [show batchStep SF now A (id, failing) =
        ((execute_script SF A.1 id now).1,
          A.2 ++ [(id, (execute_script SF A.1 id now).2)]) by simp [batchStep]]
    rw [batch_res_factor SF now post]
    simp
  have hdecompS : execute_all_enabled_scripts SS env now =
      ((post.foldl (batchStep SS now) ((execute_script SS A.1 id now).1, [])).1,
        A.2 ++ (id, (execute_script SS A.1 id now).2) ::
          (post.foldl (batchStep SS now) ((execute_script SS A.1 id now).1, [])).2) := by
    show (pre ++ (id, succeeding) :: post).foldl (batchStep SS now) (env, []) = _
    rw [List.foldl_append, ← hApre, List.foldl_cons]
    rw [show batchStep SS now A (id, succeeding) =
        ((execute_script SS A.1 id now).1,
          A.2 ++ [(id, (execute_script SS A.1 id now).2)]) by simp [batchStep]]
    rw [batch_res_factor SS now post]
    simp
  -- the post phases coincide
  have hpostEq : post.foldl (batchStep SF now) ((execute_script SF A.1 id now).1, []) =
      post.foldl (batchStep SS now) ((execute_script SS A.1 id now).1, []) := by
    rw [← henvmid]
    exact batch_congr SF SS now post (fun p hp => hagree p.1 (hpost p hp)) _
  -- the result record of the failing script
  have hrecF : (execute_script SF A.1 id now).2 =
      [("error", Val.s ("Script execution failed: " ++ e)),
       ("script_id", Val.s id), ("timestamp", Val.n now)] := by
    unfold execute_script
    rw [hlookF, hfs]
    rfl
  -- pre-phase results never use the key `id`
  have hkeys : ∀ q ∈ A.2, q.1 ≠ id := by
    intro q hq
    rcases batch_res_keys SF now pre env [] q hq with h | ⟨p, hp, hk⟩
    · simp at h
    · rw [hk]; exact hpre p hp
  refine ⟨?_, ?_, ?_⟩
  · rw [hdecompF, hrecF]
    exact lookup_append_cons_self A.2 _ id _ hkeys
  · rw [hdecompF, hdecompS, hpostEq]
  · intro id' hid'
    rw [hdecompF, hdecompS, hpostEq]
    exact lookup_append_cons_ne A.2 _ id id' _ _ hid'

/-- The innocent first script of the two-script witness batch. -/
def goodScript : Script :=
  ⟨"Good", true, [], some (fun st ps => (st, ps, Except.ok [("status", Val.s "ran")]))⟩

/-- C7 (witness): a two-script batch where the second script raises: its
result is the tagged error record while the first script's result and the
final state match the non-raising batch. -/
theorem script_error_isolation_witness :
    (∀ p ∈ ([("good", goodScript)] : List (String × Script)) ++ [], p.1 ≠ "bad") ∧
    (execute_all_enabled_scripts
        ([("good", goodScript)] ++
          ("bad", ⟨"Bad", true, [],
            some (fun st ps => (((fun (st : Dict) (ps : List (Nat × Bool)) => (st, ps))
                st ps).1,
              ((fun (st : Dict) (ps : List (Nat × Bool)) => (st, ps)) st ps).2,
              Except.error "boom"))⟩) :: [])
        ⟨[], []⟩ 4).2.lookup "bad" =
      some [("error", Val.s ("Script execution failed: " ++ "boom")),
            ("script_id", Val.s "bad"), ("timestamp", Val.n 4)] :=
  ⟨by intro p hp; simp at hp; simp [hp, goodScript],
    (script_error_isolation [("good", goodScript)]
      [] "Bad" [] (fun st ps => (st, ps)) "boom" [("status", Val.s "fine")]
      ⟨[], []⟩ 4 "bad"
      (by intro p hp; simp at hp; simp [hp, goodScript])).1⟩

theorem ensurePins_states (pins : List Nat) :
    ∀ env : SEnv, (ensurePins env pins).states = env.states := by
  induction pins with
  | nil => intro env; rfl
  | cons p t ih =>
    intro env
    have hstep : ensurePins env (p :: t) =
        ensurePins (if env.pinStates.any (fun q => q.1 = p) then env
          else { env with pinStates := env.pinStates ++ [(p, false)] }) t := rfl
    rw [hstep, ih]
    by_cases h : env.pinStates.any (fun q => q.1 = p) = true <;> simp [h]

theorem lookup_map_setKey_other {m : List (String × Dict)} {k id : String} {v : Dict}
    (h : id ≠ k) :
    (m.map (fun p => if p.1 = k then (k, v) else p)).lookup id = m.lookup id := by
  induction m with
  | nil => rfl
  | cons q t ih =>
    obtain ⟨qk, qv⟩ := q
    by_cases hq : qk = k
    · subst hq
      have hid : (id == qk) = false := by simp [h]
      rw [List.map_cons, if_pos rfl, List.lookup_cons, List.lookup_cons, hid]
      exact ih
    · rw [List.map_cons, if_neg (by simpa using hq), List.lookup_cons, List.lookup_cons]
      cases hbeq : (id == qk)
      · exact ih
      · rfl

theorem setScriptState_lookup_other (m : List (String × Dict)) (k id : String)
    (v : Dict) (h : id ≠ k) : (setScriptState m k v).lookup id = m.lookup id := by
  unfold setScriptState
  by_cases hany : m.any (fun p => p.1 = k) = true
  · rw [if_pos hany]
    exact lookup_map_setKey_other h
  · rw [if_neg hany, List.lookup_append]
    have hid : (id == k) = false := by simp [h]
    have hone : ([(k, v)] : List (String × Dict)).lookup id = none := by
      rw [List.lookup_cons, hid]
      rfl
    rw [hone, Option.or_none]

theorem ensureState_states_other (env : SEnv) (k id : String) (h : id ≠ k) :
    (ensureState env k).states.lookup id = env.states.lookup id := by
  unfold ensureState
  by_cases hany : env.states.any (fun p => p.1 = k) = true
  · rw [if_pos hany]
  · rw [if_neg hany]
    show (env.states ++ [(k, [])]).lookup id = env.states.lookup id
    rw [List.lookup_append]
    have hid : (id == k) = false := by simp [h]
    have hone : ([(k, ([] : Dict))] : List (String × Dict)).lookup id = none := by
      rw [List.lookup_cons, hid]
      rfl
    rw [hone, Option.or_none]

theorem execute_script_states_other (S : List (String × Script)) (env : SEnv)
    (k id : String) (now : Nat) (h : id ≠ k) :
    ((execute_script S env k now).1).states.lookup id = env.states.lookup id := by
  unfold execute_script
  cases hL : S.lookup k with
  | none => rfl
  | some script =>
    dsimp only
    by_cases hen : script.enabled = false
    · rw [if_pos hen]
    · rw [if_neg hen]
      cases hc : script.code with
      | none =>
        show (ensureState (ensurePins env script.gpio_pins) k).states.lookup id = _
        rw [ensureState_states_other _ _ _ h, ensurePins_states]
      | some f =>
        dsimp only
        cases hr : (f ((List.lookup k (ensureState (ensurePins env
            script.gpio_pins) k).states).getD [])
            (ensureState (ensurePins env script.gpio_pins) k).pinStates).2.2 with
        | ok result =>
          show (setScriptState (ensureState (ensurePins env script.gpio_pins) k).states k
            _).lookup id = _
          rw [setScriptState_lookup_other _ _ _ _ h, ensureState_states_other _ _ _ h,
            ensurePins_states]
        | error e2 =>
          show (setScriptState (ensureState (ensurePins env script.gpio_pins) k).states k
            _).lookup id = _
          rw [setScriptState_lookup_other _ _ _ _ h, ensureState_states_other _ _ _ h,
            ensurePins_states]

theorem batch_states_frozen (S : List (String × Script)) (now : Nat) (id : String) :
    ∀ l : List (String × Script), (∀ p ∈ l, p.1 = id → p.2.enabled = false) →
    ∀ (env : SEnv) (res : List (String × Dict)),
      ((l.foldl (batchStep S now) (env, res)).1).states.lookup id =
        env.states.lookup id := by
  intro l
  induction l with
  | nil => intro _ env res; rfl
  | cons p t ih =>
    intro hl env res
    rw [List.foldl_cons]
    cases hp : p.2.enabled
    · rw [show batchStep S now (env, res) p = (env, res) by simp [batchStep, hp]]
      exact ih (fun q hq => hl q (by simp [hq])) env res
    · have hne : id ≠ p.1 := by
        intro he
        have hdis := hl p (by simp) he.symm
        rw [hdis] at hp
        exact Bool.false_ne_true hp
      rw [show batchStep S now (env, res) p =
          ((execute_script S env p.1 now).1,
            res ++ [(p.1, (execute_script S env p.1 now).2)]) by simp [batchStep, hp]]
      rw [ih (fun q hq => hl q (by simp [hq])) _ _]
      exact execute_script_states_other S env p.1 id now hne

theorem batch_skip_disabled (S : List (String × Script)) (now : Nat) (id : String) :
    ∀ l : List (String × Script), (∀ p ∈ l, p.1 = id → p.2.enabled = false) →
    ∀ (env : SEnv) (res : List (String × Dict)),
      ((l.foldl (batchStep S now) (env, res)).2).lookup id = res.lookup id := by
  intro l
  induction l with
  | nil => intro _ env res; rfl
  | cons p t ih =>
    intro hl env res
    rw [List.foldl_cons]
    cases hp : p.2.enabled
    · rw [show batchStep S now (env, res) p = (env, res) by simp [batchStep, hp]]
      exact ih (fun q hq => hl q (by simp [hq])) env res
    · have hne : id ≠ p.1 := by
        intro he
        have hdis := hl p (by simp) he.symm
        rw [hdis] at hp
        exact Bool.false_ne_true hp
      rw [show batchStep S now (env, res) p =
          ((execute_script S env p.1 now).1,
            res ++ [(p.1, (execute_script S env p.1 now).2)]) by simp [batchStep, hp]]
      rw [ih (fun q hq => hl q (by simp [hq])) _ _]
      rw [List.lookup_append]
      have hb : (id == p.1) = false := by simp [hne]
      have hone : ([(p.1, (execute_script S env p.1 now).2)] :
          List (String × Dict)).lookup id = none := by
        rw [List.lookup_cons, hb]
        rfl
      rw [hone, Option.or_none]

/-- C9: toggling a script off removes it from the execution set — the batch
records no result for it and its persisted runtime state is left intact — and
executing it directly while disabled does nothing; toggling it back on
restores the original registry entry, so its next execution is exactly the
execution that would have happened without the round trip, and that execution
receives the previously persisted state rather than a fresh one. -/
theorem disable_enable_preserves_state
    (scripts : List (String × Script)) (env : SEnv) (id : String) (now : Nat)
    (st : Dict) (script : Script)
    (hscript : scripts.lookup id = some script)
    (hstate : env.states.lookup id = some st) :
    ((execute_all_enabled_scripts (setEnabled scripts id false) env now).2.lookup id =
      none) ∧
    (((execute_all_enabled_scripts (setEnabled scripts id false) env now).1).states.lookup
      id = some st) ∧
    (execute_script (setEnabled scripts id false) env id now =
      (env, [("status", Val.s "Script disabled")])) ∧
    (script.enabled = true →
      execute_script (setEnabled (setEnabled scripts id false) id true) env id now =
        execute_script scripts env id now) ∧
    (∀ pins, (ensureState (ensurePins env pins) id).states.lookup id = some st) := by
  have hdis : ∀ p ∈ setEnabled scripts id false, p.1 = id → p.2.enabled = false := by
    intro p hp hk
    rcases List.mem_map.mp hp with ⟨q, hq, rfl⟩
    by_cases hq1 : q.1 = id
    · simp [hq1]
    · rw [if_neg hq1] at hk ⊢
      exact absurd hk hq1
  refine ⟨?_, ?_, ?_, ?_, ?_⟩
  · exact batch_skip_disabled _ now id _ hdis env []
  · exact (batch_states_frozen _ now id _ hdis env []).trans hstate
  · unfold execute_script
    rw [lookup_setEnabled, hscript]
    rfl
  · intro hen
    have h1 : (setEnabled (setEnabled scripts id false) id true).lookup id =
        some { script with enabled := true } := by
      rw [lookup_setEnabled, lookup_setEnabled, hscript]
      rfl
    have h2 : ({ script with enabled := true } : Script) = script := by
      cases script with
      | mk nm en gp cd =>
        dsimp only at hen ⊢
        rw [hen]
    unfold execute_script
    rw [h1, h2, hscript]
  · intro pins
    have hps : (ensurePins env pins).states = env.states := ensurePins_states pins env
    have hany : env.states.any (fun p => p.1 = id) = true := any_of_lookup hstate
    unfold ensureState
    rw [hps, if_pos hany, hps]
    exact hstate

/-- C9 (witness): `disable_enable_preserves_state` on a one-script registry
whose script carries the persisted state `[("count", 3)]`. -/
theorem disable_enable_preserves_state_witness :
    (([("good", goodScript)] : List (String × Script)).lookup "good" = some goodScript ∧
      (⟨[], [("good", [("count", Val.n 3)])]⟩ : SEnv).states.lookup "good" =
        some [("count", Val.n 3)]) ∧
    (ensureState (ensurePins ⟨[], [("good", [("count", Val.n 3)])]⟩ []) "good").states.lookup
      "good" = some [("count", Val.n 3)] :=
  ⟨⟨by simp, by decide⟩,
    (disable_enable_preserves_state [("good", goodScript)]
      ⟨[], [("good", [("count", Val.n 3)])]⟩ "good" 4 [("count", Val.n 3)] goodScript
      (by simp) (by decide)).2.2.2.2 []⟩

/-! ## Connection lifecycle and writes (`PLCCommunicator.connect`,
`write_coil`, `write_register`; plc_communication.py lines 53-109, 264-298) -/

/-- The `PLCCommunicator` fields consulted by `connect` and the writes; the
transport client is opaque (`some ()` when constructed). -/
structure PLCConn where
  simulation_mode : Bool
  connected : Bool
  client : Option Unit
  status_connected : Bool
  deriving Repr, DecidableEq

/-- The freshly constructed communicator: `client = None`,
`connected = False`. -/
def initComm (simulation : Bool) : PLCConn :=
  { simulation_mode := simulation, connected := false, client := none,
    status_connected := false }

/-- `PLCCommunicator.connect` on the serial configuration: simulation mode
reports success without creating any client; otherwise, when pymodbus is
available, the client is created and its connect outcome adopted. -/
def connect (st : PLCConn) (modbusAvailable clientConnects : Bool) : PLCConn × Bool :=
  if st.simulation_mode then
    ({ st with connected := true, status_connected := true }, true)
  else if modbusAvailable = false then (st, false)
  else
    let st1 := { st with client := some () }
    if clientConnects then
      ({ st1 with connected := true, status_connected := true }, true)
    else ({ st1 with connected := false }, false)

set_option linter.unusedVariables false in
/-- `PLCCommunicator.write_coil`: fails closed with `"PLC not connected"`
when not connected or no client exists; otherwise the device outcome decides
between `(True, "Success")` and `(False, str(result))`; the address and value
are forwarded to the device and do not influence the guard. -/
def write_coil (st : PLCConn) (address : Nat) (value : Bool) (deviceOk : Bool)
    (deviceMsg : String) : Bool × String :=
  if st.connected = false ∨ st.client = none then (false, "PLC not connected")
  else if deviceOk then (true, "Success") else (false, deviceMsg)

set_option linter.unusedVariables false in
/-- `PLCCommunicator.write_register`, same guard as `write_coil`. -/
def write_register (st : PLCConn) (address value : Nat) (deviceOk : Bool)
    (deviceMsg : String) : Bool × String :=
  if st.connected = false ∨ st.client = none then (false, "PLC not connected")
  else if deviceOk then (true, "Success") else (false, deviceMsg)

/-- C10: with simulation mode configured, `connect()` returns true and sets
`connected = True` while the client stays absent, and thereafter every
`write_coil` / `write_register` call returns `(False, "PLC not connected")`
whatever the address, value and device outcome — writes are never applied to
simulated data. -/
theorem simulation_mode_writes_fail :
    ∀ (mba cc : Bool) (addr : Nat) (bv : Bool) (rv : Nat) (dOk : Bool) (dMsg : String),
      (connect (initComm true) mba cc).2 = true ∧
      (connect (initComm true) mba cc).1.connected = true ∧
      (connect (initComm true) mba cc).1.client = none ∧
      write_coil (connect (initComm true) mba cc).1 addr bv dOk dMsg =
        (false, "PLC not connected") ∧
      write_register (connect (initComm true) mba cc).1 addr rv dOk dMsg =
        (false, "PLC not connected") := by
  intro mba cc addr bv rv dOk dMsg
  exact ⟨rfl, rfl, rfl, rfl, rfl⟩

end ESPPLC
